import Mathlib

/-!
Shallow embedding of the `mpraski/crawler` Go repository, for checking its
natural-language specification.

Strings (URLs, HTML attribute values, bodies) are modelled as lists of
characters (`Str`), Go maps as association lists with Go's zero-value
default on missing keys, goroutine-visible crawler state as an explicit
`CrawlState` record threaded through the translated functions, and channel
sends as list appends (the blocking question of the bounded error channel is
modelled separately by `chanSend`).  Go `*Page` pointers stored in edge
lists are represented by the pointee's key URL: every page stored in an edge
list is the freshly created page of `collect`, whose key in `sites` is
`result.url`, so the URL determines the pointer.
-/

set_option autoImplicit false

/-- URLs, attribute values and titles: Go strings as character lists. -/
abbrev Str := List Char

/-- Raw downloaded bytes. -/
abbrev Body := List Nat

/-- Lookup in an association list modelling a Go map (first binding wins;
`mapSet` keeps keys unique so there is at most one). -/
def mapGet {α : Type} (m : List (Str × α)) (k : Str) : Option α :=
  match m with
  | [] => none
  | (k', v) :: rest => if k' = k then some v else mapGet rest k

/-- Go map read with zero-value default (`m[k]` on a missing key). -/
def mapGetD {α : Type} (m : List (Str × α)) (k : Str) (d : α) : α :=
  (mapGet m k).getD d

/-- Go map write `m[k] = v`: replace the binding if present, else add it. -/
def mapSet {α : Type} (m : List (Str × α)) (k : Str) (v : α) : List (Str × α) :=
  match m with
  | [] => [(k, v)]
  | (k', v') :: rest => if k' = k then (k, v) :: rest else (k', v') :: mapSet rest k v

/-- In-place update of the value under `k`, as in
`m[k].Field = append(m[k].Field, x)`.  On a missing key Go would fault on the
nil pointer; the call sites in the source guard presence (`hasVisited`, the
sentinel insertion), and the theorems below carry explicit presence
hypotheses, so the missing-key case is modelled as a no-op. -/
def mapModify {α : Type} (m : List (Str × α)) (k : Str) (f : α → α) : List (Str × α) :=
  match m with
  | [] => []
  | (k', v') :: rest => if k' = k then (k', f v') :: rest else (k', v') :: mapModify rest k f

/-! ## Data model (`page.go`: `Page`, `Asset`, `AssetType`, `result`) -/

/-- `AssetType` enumeration of the source. -/
inductive AssetType where
  | Link
  | Script
  | Image
  | Video
  deriving DecidableEq

/-- `Asset`: a (type, URL) pair. -/
structure Asset where
  type : AssetType
  url : Str
  deriving DecidableEq

/-- `Page`: edge lists hold URLs standing for the Go `*Page` pointers
(each stored pointer is the page registered under that URL). -/
structure Page where
  title : Str
  url : Str
  linksTo : List Str
  linkedFrom : List Str
  assets : List Asset
  deriving DecidableEq

/-- `result`: item of the fetch-result channel (`frm` renders Go's `from`,
a reserved word in Lean). -/
structure result where
  url : Str
  frm : Str
  body : Body
  deriving DecidableEq

/-- Error values of `errors.go`, plus `network` for opaque transport errors
returned by the HTTP client. -/
inductive CrawlError where
  | invalidHtml
  | badResponse
  | noArgument
  | invalidURL
  | urlParseError
  | network (code : Nat)
  deriving DecidableEq

/-! ## Crawler state (`crawler.go`)

The fields `sites`, `retries`, `processed`, `results`, `errors` and `wg`
translate the same-named fields of the `Crawler` struct (`wg` is the counter
value of the `sync.WaitGroup`).  `downloads`, `tasks` and `callbacks` are
instrumentation: logs of Downloader invocations, of spawned
`go c.crawl(url, from)` tasks, and of spawned callback invocations, needed
to state the claims about those events. -/

structure CrawlState where
  sites : List (Str × Page)
  retries : List (Str × Nat)
  processed : List (Str × Bool)
  results : List result
  errors : List CrawlError
  wg : Int
  downloads : Nat
  tasks : List (Str × Str)
  callbacks : List Str
  deriving DecidableEq

/-- `hasVisited`: membership in the `sites` map. -/
def hasVisited (s : CrawlState) (url : Str) : Bool :=
  (mapGet s.sites url).isSome

/-- `markVisited`: `c.sites[url] = page`. -/
def markVisited (s : CrawlState) (url : Str) (page : Page) : CrawlState :=
  { s with sites := mapSet s.sites url page }

/-- `addLinkedFrom`: append to `c.sites[url].LinkedFrom`. -/
def addLinkedFrom (s : CrawlState) (url : Str) (pageUrl : Str) : CrawlState :=
  { s with
    sites := mapModify s.sites url (fun p => { p with linkedFrom := p.linkedFrom ++ [pageUrl] }) }

/-- `addLinksTo`: append to `c.sites[url].LinksTo`. -/
def addLinksTo (s : CrawlState) (url : Str) (pageUrl : Str) : CrawlState :=
  { s with
    sites := mapModify s.sites url (fun p => { p with linksTo := p.linksTo ++ [pageUrl] }) }

/-- `isBeingProcessed`: `c.processed[url]` with Go's `false` default. -/
def isBeingProcessed (s : CrawlState) (url : Str) : Bool :=
  mapGetD s.processed url false

/-- `markBeingProcessed`: `c.processed[url] = processed`. -/
def markBeingProcessed (s : CrawlState) (url : Str) (processed : Bool) : CrawlState :=
  { s with processed := mapSet s.processed url processed }

/-- `c.retries[url]` with Go's `0` default. -/
def retryCount (s : CrawlState) (url : Str) : Nat :=
  mapGetD s.retries url 0

/-- `shouldRetry`: `c.retries[url] < c.maxRetries`. -/
def shouldRetry (maxRetries : Nat) (s : CrawlState) (url : Str) : Bool :=
  retryCount s url < maxRetries

/-- `markRetry`: `c.retries[url] = c.retries[url] + 1`. -/
def markRetry (s : CrawlState) (url : Str) : CrawlState :=
  { s with retries := mapSet s.retries url (retryCount s url + 1) }

/-! ## The fetch-with-retry task (`crawl`) -/

/-- Downloader collaborator as seen by one fetch task: the outcome of
invoking `Download(url)` when the URL's retry counter has a given value.
The counter is the only crawler state that changes between successive
attempts of one task, so it indexes the attempts. -/
abbrev DownloaderM := Str → Nat → Except CrawlError Body

/-- Extractor collaborator: `Extract(body) -> (title, links, assets)` or an
error. -/
abbrev ExtractorM := Body → Except CrawlError (Str × List Str × List Asset)

/-- `crawl`: download; on success clear the `processed` flag and enqueue a
`result`; on failure push the error on the error channel, then either retry
(incrementing the per-URL counter) or retire the URL, clearing the flag and
decrementing the pending-work counter.  `downloads` counts Downloader
invocations. -/
def crawl (D : DownloaderM) (maxRetries : Nat) (url frm : Str) (s : CrawlState) : CrawlState :=
  let s0 := { s with downloads := s.downloads + 1 }
  match D url (retryCount s url) with
  | Except.ok body =>
      let s1 := markBeingProcessed s0 url false
      { s1 with results := s1.results ++ [⟨url, frm, body⟩] }
  | Except.error e =>
      let s1 := { s0 with errors := s0.errors ++ [e] }
      if _h : shouldRetry maxRetries s1 url then
        crawl D maxRetries url frm (markRetry s1 url)
      else
        let s2 := markBeingProcessed s1 url false
        { s2 with wg := s2.wg - 1 }
  termination_by maxRetries - retryCount s url
  decreasing_by
    simp only [shouldRetry, retryCount, markRetry, mapGetD, decide_eq_true_eq] at _h ⊢
    have h2 : ∀ (m : List (Str × Nat)) (k : Str) (v : Nat), mapGet (mapSet m k v) k = some v := by
      intro m k v
      induction m with
      | nil => simp [mapGet, mapSet]
      | cons p rest ih =>
        obtain ⟨k', v'⟩ := p
        by_cases h : k' = k <;> simp [mapGet, mapSet, h, ih]
    simp [retryCount, mapGetD, h2]
    omega

/-- Per-link branch of `collect`'s result case: record a back-edge when the
link is already visited, else dispatch it if it is neither in flight nor out
of retry budget.  `tasks` logs the spawned `go c.crawl(url, from)` calls and
`callbacks` the spawned callback invocations. -/
def handleLink (maxRetries : Nat) (hasCallback : Bool) (s : CrawlState) (page : Page)
    (resultUrl link : Str) : CrawlState :=
  if hasVisited s link then
    addLinkedFrom s link page.url
  else
    if !(isBeingProcessed s link) && shouldRetry maxRetries s link then
      let s1 := markBeingProcessed s link true
      let s2 := { s1 with wg := s1.wg + 1 }
      let s3 := { s2 with tasks := s2.tasks ++ [(link, resultUrl)] }
      if hasCallback then { s3 with callbacks := s3.callbacks ++ [link] } else s3
    else
      s

/-- Body of `collect`'s `result` case, processing one dequeued fetch-result:
extract; on success register the new page, add the forward edge on the
originating page, walk the links; in both cases decrement the pending-work
counter once at the end. -/
def collectResult (E : ExtractorM) (maxRetries : Nat) (hasCallback : Bool)
    (s : CrawlState) (r : result) : CrawlState :=
  match E r.body with
  | Except.ok (title, links, assets) =>
      let page : Page :=
        { title := title, url := r.url, linksTo := [], linkedFrom := [], assets := assets }
      let s1 := markVisited s r.url page
      let s2 := addLinksTo s1 r.frm page.url
      let s3 := links.foldl (fun acc link => handleLink maxRetries hasCallback acc page r.url link) s2
      { s3 with wg := s3.wg - 1 }
  | Except.error e =>
      let s1 := { s with errors := s.errors ++ [e] }
      { s1 with wg := s1.wg - 1 }

/-! ## Concrete inputs used by witnesses and counterexamples -/

/-- The reserved sentinel graph key of `Crawl`. -/
def sentinelKey : Str := "<root>".toList

def urlA : Str := "http://a.com/".toList

def urlB : Str := "http://a.com/b".toList

/-- Downloader that always succeeds with a one-byte body. -/
def okDownloader : DownloaderM := fun _ _ => Except.ok [1]

/-- Downloader that always fails with a bad-response error. -/
def failDownloader : DownloaderM := fun _ _ => Except.error CrawlError.badResponse

/-- Fresh crawl state. -/
def emptyState : CrawlState :=
  { sites := [], retries := [], processed := [], results := [], errors := [],
    wg := 0, downloads := 0, tasks := [], callbacks := [] }

/-- State right after `urlA` was dispatched (flag true, counter incremented). -/
def dispatchedState : CrawlState :=
  { emptyState with processed := [(urlA, true)], wg := 1 }

/-- State in which `urlB` has exhausted a retry budget of 2. -/
def exhaustedState : CrawlState :=
  { emptyState with retries := [(urlB, 2)] }

/-- A bare page registered under `urlA`. -/
def pageA : Page :=
  { title := [], url := urlA, linksTo := [], linkedFrom := [], assets := [] }

/-- Extractor that succeeds with an empty extraction. -/
def extractorNone : ExtractorM := fun _ => Except.ok ([], [], [])

/-- State whose graph holds exactly the page of `urlA`. -/
def stateWithA : CrawlState := { emptyState with sites := [(urlA, pageA)] }

/-- Fetch-result for `urlB`, originating at `urlA`. -/
def resultBfromA : result := { url := urlB, frm := urlA, body := [0] }

/-! ## Channel-send model (Go buffered-channel semantics) -/

/-- Outcome of a Go send `ch <- v` on a buffered channel with no ready
receiver: if the buffer holds fewer values than the capacity, the value is
appended and the sender continues; if the buffer is full, the sender blocks
until a receiver drains the channel.  A buffered channel never drops a
value. -/
inductive SendOutcome (α : Type) where
  | sent (buffer : List α)
  | blocked
  deriving DecidableEq

/-- Go buffered-channel send. -/
def chanSend {α : Type} (cap : Nat) (buffer : List α) (v : α) : SendOutcome α :=
  if buffer.length < cap then SendOutcome.sent (buffer ++ [v]) else SendOutcome.blocked

/-- `c.errors <- err`, as issued by `crawl` and `collect`: the error channel
is created by `make(chan error, 100)` in both constructors. -/
def reportError (buffer : List CrawlError) (e : CrawlError) : SendOutcome CrawlError :=
  chanSend 100 buffer e

/-! ## Termination coordinator (`Crawl`, `stopGoroutines`) -/

/-- Events of the coordinator goroutine spawned by `Crawl`, in source
order. -/
inductive CoordEvent where
  | addCounter
  | addSentinel
  | dispatchRoot
  | waitCounterZero
  | stopSignal (worker : Nat)
  | waitWorkersDone
  | closeResults
  | removeSentinel
  | clearMaps
  | signalDone
  deriving DecidableEq

/-- `stopGoroutines`: one send on the dedicated quit channel of each worker,
in order. -/
def stopGoroutines (quit : List Nat) : List CoordEvent :=
  quit.map CoordEvent.stopSignal

/-- The quit-channel list built by the worker-spawning loop of `Crawl`: one
dedicated channel per worker. -/
def crawlQuitChannels (maxWorkers : Nat) : List Nat :=
  List.range maxWorkers

/-- Straight-line event trace of the coordinator goroutine of `Crawl`:
`wg.Add(1)`; insert the sentinel root; `c.crawl(c.url, "<root>")`;
`wg.Wait()`; `stopGoroutines`; `wgStop.Wait()`; `close(c.results)`;
`delete(c.sites, "<root>")`; drop the retry and processed maps;
`c.done <- struct` (the completion signal). -/
def crawlCoordinatorTrace (maxWorkers : Nat) : List CoordEvent :=
  [CoordEvent.addCounter, CoordEvent.addSentinel, CoordEvent.dispatchRoot,
    CoordEvent.waitCounterZero]
  ++ stopGoroutines (crawlQuitChannels maxWorkers)
  ++ [CoordEvent.waitWorkersDone, CoordEvent.closeResults, CoordEvent.removeSentinel,
    CoordEvent.clearMaps, CoordEvent.signalDone]

/-! ## Model of the net/url collaborator

The extractor and the constructors delegate URL handling to the Go standard
library (`url.Parse`, `url.ParseRequestURI`).  That library is external to
the repository, so it is modelled here: scheme, host and path extraction for
URI references, with the behaviours the source relies on — rejection of
control characters, scheme detection (leading letter, then letters, digits,
`+`, `-`, `.` up to the first colon; the lowercasing Go applies to the
scheme is omitted, as case never affects the properties checked here),
network-path references
(`//host/...`), authority ending at `/`, `?` or `#`, fragment and query
excluded from the path, opaque URLs (`scheme:data`) with empty path, and
`ParseRequestURI` rejecting references that are neither absolute nor
rooted.  Userinfo is not separated from the host. -/

structure GoURL where
  scheme : Str
  host : Str
  path : Str
  deriving DecidableEq

/-- Characters permitted in a scheme after its leading letter. -/
def isSchemeChar (c : Char) : Bool :=
  c.isAlphanum || c = '+' || c = '-' || c = '.'

/-- ASCII control characters, rejected by Go URL parsing. -/
def isCtlChar (c : Char) : Bool :=
  c.toNat < 32 || c.toNat = 127

def hasCtl (s : Str) : Bool :=
  s.any isCtlChar

/-- Characters ending the authority component. -/
def isHostEnd (c : Char) : Bool :=
  c = '/' || c = '?' || c = '#'

/-- Scheme detection: the prefix before the first colon when it is a valid
scheme; `badScheme` when the colon comes first (a Go parse error);
`noScheme` when there is no colon or an invalid character precedes it. -/
inductive SchemeSplit where
  | noScheme
  | withScheme (scheme rest : Str)
  | badScheme
  deriving DecidableEq

def getSchemeAux (acc : Str) (rest : Str) : SchemeSplit :=
  match rest with
  | [] => SchemeSplit.noScheme
  | c :: cs =>
      if c = ':' then
        if acc.isEmpty then SchemeSplit.badScheme else SchemeSplit.withScheme acc cs
      else if (if acc.isEmpty then c.isAlpha else isSchemeChar c) then
        getSchemeAux (acc ++ [c]) cs
      else
        SchemeSplit.noScheme

def getScheme (s : Str) : SchemeSplit :=
  getSchemeAux [] s

/-- Split an authority-bearing remainder (after `//`) into host and path,
query and fragment excluded. -/
def parseAuthority (scheme : Str) (afterSlashes : Str) : GoURL :=
  { scheme := scheme
    host := afterSlashes.takeWhile (fun c => !(isHostEnd c))
    path := ((afterSlashes.dropWhile (fun c => !(isHostEnd c))).takeWhile
        (fun c => c ≠ '?')).takeWhile (fun c => c ≠ '#') }

/-- Model of `url.Parse` on a URI reference, reduced to scheme, host and
path. -/
def urlParse (s : Str) : Option GoURL :=
  if hasCtl s then none
  else
    let noFrag := s.takeWhile (fun c => c ≠ '#')
    match getScheme noFrag with
    | SchemeSplit.badScheme => none
    | SchemeSplit.withScheme sch rest =>
        if rest.take 2 = ['/', '/'] then
          some (parseAuthority sch (rest.drop 2))
        else if rest.take 1 = ['/'] then
          some { scheme := sch, host := [],
                 path := rest.takeWhile (fun c => c ≠ '?') }
        else
          some { scheme := sch, host := [], path := [] }
    | SchemeSplit.noScheme =>
        if noFrag.take 2 = ['/', '/'] then
          some (parseAuthority [] (noFrag.drop 2))
        else
          some { scheme := [], host := [], path := noFrag.takeWhile (fun c => c ≠ '?') }

/-- Model of `url.ParseRequestURI`: only absolute URIs or rooted references
are accepted (the fragment is not split off, but the root URL is used only
for its scheme and host). -/
def parseRequestURI (s : Str) : Option GoURL :=
  if s = [] then none
  else if hasCtl s then none
  else
    match getScheme s with
    | SchemeSplit.badScheme => none
    | SchemeSplit.withScheme sch rest =>
        if rest.take 2 = ['/', '/'] then
          some (parseAuthority sch (rest.drop 2))
        else if rest.take 1 = ['/'] then
          some { scheme := sch, host := [],
                 path := rest.takeWhile (fun c => c ≠ '?') }
        else
          none
    | SchemeSplit.noScheme =>
        if s.take 2 = ['/', '/'] then
          some (parseAuthority [] (s.drop 2))
        else if s.take 1 = ['/'] then
          some { scheme := [], host := [], path := s.takeWhile (fun c => c ≠ '?') }
        else
          none

/-! ## Extractor (`extractor.go`) -/

/-- `defaultExtractor`: holds the parsed crawl root domain (the compiled
file regex is a fixed constant, rendered by `fileRegexMatch`). -/
structure defaultExtractor where
  domain : GoURL
  deriving DecidableEq

/-- `NewDefaultExtractor`: parse the root URL with `ParseRequestURI` and
require a scheme and a host. -/
def NewDefaultExtractor (domain : Str) : Except CrawlError defaultExtractor :=
  match parseRequestURI domain with
  | none => Except.error CrawlError.urlParseError
  | some u =>
      if u.scheme = [] ∨ u.host = [] then Except.error CrawlError.invalidURL
      else Except.ok { domain := u }

/-- `\w` of the file regex together with the other stem characters:
letters, digits, underscore, comma, regex whitespace, hyphen. -/
def isWordClassChar (c : Char) : Bool :=
  c.isAlphanum || c = '_' || c = ',' || c = '-' ||
    c = ' ' || c = '\t' || c = '\n' || c = '\x0c' || c = '\r'

/-- Language of the anchored file regex of `NewDefaultExtractor`,
`(slash-blocks)* stem dot letters`: a match decomposes the path at its last
dot — the extension after it must be nonempty letters, and the stem before
it must end in a word-class character when the path is rooted (the
slash-block prefix absorbs the rest), or consist entirely of word-class
characters when it is not (the prefix must then be empty, since every
nonempty prefix of blocks starts with a slash). -/
def fileRegexMatch (p : Str) : Bool :=
  let extRev := p.reverse.takeWhile (fun c => c ≠ '.')
  if extRev.length = p.length then
    false
  else
    let before := p.take (p.length - extRev.length - 1)
    !(extRev.isEmpty) && extRev.all Char.isAlpha &&
      (match before.getLast? with
       | none => false
       | some c =>
           if p.take 1 = ['/'] then isWordClassChar c
           else before.all isWordClassChar)

/-- `isFileUrl`: parseable, not an html page by suffix, and matching the
file regex on the path. -/
def isFileUrl (address : Str) : Bool :=
  match urlParse address with
  | none => false
  | some u =>
      !((".html".toList.isSuffixOf u.path)) && !((".htm".toList.isSuffixOf u.path)) &&
        fileRegexMatch u.path

/-- `isSameDomain`: parseable and host-less or exactly the root host. -/
def isSameDomain (domain : GoURL) (address : Str) : Bool :=
  match urlParse address with
  | none => false
  | some u => u.host = [] || domain.host = u.host

/-- `expandIfNeeded`: host-less references get the root scheme and host
prefixed, with a slash inserted unless the parsed path is already rooted;
anything else is returned verbatim (an unparseable address would become the
empty string, but every call site has already checked parseability). -/
def expandIfNeeded (domain : GoURL) (address : Str) : Str :=
  match urlParse address with
  | none => []
  | some u =>
      if u.host = [] then
        if u.path.take 1 = ['/'] then
          domain.scheme ++ (':' :: '/' :: '/' :: []) ++ domain.host ++ address
        else
          domain.scheme ++ (':' :: '/' :: '/' :: []) ++ domain.host ++ ('/' :: address)
      else
        address

/-- Output of the `golang.org/x/net/html` tokenizer, as consumed by
`Extract`: start tags with their attributes, text, other token kinds, and a
non-EOF tokenizer error (EOF is the end of the list). -/
inductive Token where
  | startTag (name : Str) (attrs : List (Str × Str))
  | textTok (data : Str)
  | otherTok
  | errTok
  deriving DecidableEq

/-- Accumulator of one `Extract` call: the title, the link and asset lists,
and the two dedup sets of the call. -/
structure ExtractState where
  title : Str
  links : List Str
  assets : List Asset
  setLinks : List Str
  setAssets : List Str
  deriving DecidableEq

/-- `strings.TrimSpace`. -/
def trimSpace (s : Str) : Str :=
  ((s.dropWhile Char.isWhitespace).reverse.dropWhile Char.isWhitespace).reverse

/-- `addAsset`: file-like references become assets, deduplicated against
the asset set of this call. -/
def addAsset (d : defaultExtractor) (st : ExtractState) (address : Str)
    (kind : AssetType) : ExtractState :=
  if isFileUrl address then
    let expanded := expandIfNeeded d.domain address
    if expanded ∈ st.setAssets then st
    else
      { st with assets := st.assets ++ [{ type := kind, url := expanded }],
                setAssets := expanded :: st.setAssets }
  else
    st

/-- The `href` handling of the `a` case of `Extract`: file-like hrefs
become `Link` assets; same-domain hrefs become links, deduplicated against
the link set of this call; anything else is dropped. -/
def processHref (d : defaultExtractor) (st : ExtractState) (v : Str) : ExtractState :=
  if isFileUrl v then
    let expanded := expandIfNeeded d.domain v
    if expanded ∈ st.setAssets then st
    else
      { st with assets := st.assets ++ [{ type := AssetType.Link, url := expanded }],
                setAssets := expanded :: st.setAssets }
  else if isSameDomain d.domain v then
    let expanded := expandIfNeeded d.domain v
    if expanded ∈ st.setLinks then st
    else
      { st with links := st.links ++ [expanded], setLinks := expanded :: st.setLinks }
  else
    st

/-- The tokenizer loop of `Extract`.  The `title` case consumes the next
token and keeps its trimmed text only when it is a text token; the `a`,
`script`, `img` and `link` cases fold over all matching attributes; the
`source` case of the Go switch is unreachable (its guard compares the outer
token type, already known to be a start tag, against the text-token kind),
so it adds nothing; a non-EOF tokenizer error aborts the call. -/
def extractLoop (d : defaultExtractor) (toks : List Token) (st : ExtractState) :
    Except CrawlError (Str × List Str × List Asset) :=
  match toks with
  | [] => Except.ok (st.title, st.links, st.assets)
  | Token.errTok :: _ => Except.error CrawlError.invalidHtml
  | Token.textTok _ :: rest => extractLoop d rest st
  | Token.otherTok :: rest => extractLoop d rest st
  | Token.startTag name attrs :: rest =>
      if name = "title".toList then
        match rest with
        | [] => Except.ok (st.title, st.links, st.assets)
        | Token.errTok :: _ => Except.error CrawlError.invalidHtml
        | Token.textTok data :: rest2 =>
            extractLoop d rest2 { st with title := trimSpace data }
        | _ :: rest2 => extractLoop d rest2 st
      else if name = "a".toList then
        extractLoop d rest (attrs.foldl
          (fun acc kv => if kv.1 = "href".toList then processHref d acc kv.2 else acc) st)
      else if name = "script".toList then
        extractLoop d rest (attrs.foldl
          (fun acc kv =>
            if kv.1 = "src".toList then addAsset d acc kv.2 AssetType.Script else acc) st)
      else if name = "img".toList then
        extractLoop d rest (attrs.foldl
          (fun acc kv =>
            if kv.1 = "src".toList then addAsset d acc kv.2 AssetType.Image else acc) st)
      else if name = "link".toList then
        extractLoop d rest (attrs.foldl
          (fun acc kv =>
            if kv.1 = "href".toList then addAsset d acc kv.2 AssetType.Link else acc) st)
      else
        extractLoop d rest st

/-- `Extract`: run the tokenizer loop with empty accumulators (fresh dedup
sets per call). -/
def Extract (d : defaultExtractor) (toks : List Token) :
    Except CrawlError (Str × List Str × List Asset) :=
  extractLoop d toks
    { title := [], links := [], assets := [], setLinks := [], setAssets := [] }

/-! ## Constructors (`crawler.go`) -/

/-- `Options`: the collaborator overrides are reduced to presence flags
(construction only tests them against nil). -/
structure Options where
  MaxWorkers : Nat
  MaxRetries : Nat
  hasDownloader : Bool
  hasExtractor : Bool
  hasCallback : Bool
  deriving DecidableEq

/-- Construction-relevant fields of the `Crawler` struct. -/
structure Crawler where
  url : Str
  maxRetries : Nat
  maxWorkers : Nat
  deriving DecidableEq

/-- `NewCrawler`: defaults (10 workers, 2 retries); fails exactly when the
default extractor rejects the root URL. -/
def NewCrawler (url : Str) : Except CrawlError Crawler :=
  match NewDefaultExtractor url with
  | Except.ok _ => Except.ok { url := url, maxRetries := 2, maxWorkers := 10 }
  | Except.error e => Except.error e

/-- `NewCrawlerWithOptions`: the downloader override (or its default) never
fails; the default extractor is built — and the root URL therefore
validated — only when no extractor override is supplied. -/
def NewCrawlerWithOptions (url : Str) (options : Options) : Except CrawlError Crawler :=
  if options.hasExtractor then
    Except.ok { url := url, maxRetries := options.MaxRetries, maxWorkers := options.MaxWorkers }
  else
    match NewDefaultExtractor url with
    | Except.ok _ =>
        Except.ok { url := url, maxRetries := options.MaxRetries,
                    maxWorkers := options.MaxWorkers }
    | Except.error e => Except.error e

/-- Whether a construction step succeeded. -/
def exceptOk {ε α : Type} : Except ε α → Bool
  | Except.ok _ => true
  | Except.error _ => false

/-! ## Downloader and buffer pool (`downloader.go`)

The `BufferPool` implementation is not among the packaged sources — only
its test and its callers are — so the pool itself is modelled from the
spec. -/

/-- Modelled from the spec: the Buffer Pool collaborator, a reusable
byte-buffer source ("reusable byte-buffer source"; `NewBufferPool(n, cap)`
pre-allocates buffers, `Get` takes a buffer out of the pool and `Put`
returns it for reuse by later `Get` calls).  Buffers carry ids; `free`
lists the ids available for handing out, `next` is the next fresh id used
when the pool is empty. -/
structure BufferPool where
  free : List Nat
  next : Nat
  deriving DecidableEq

/-- `Get`: take an available buffer, or allocate a fresh one. -/
def poolGet (p : BufferPool) : Nat × BufferPool :=
  match p.free with
  | [] => (p.next, { p with next := p.next + 1 })
  | b :: rest => (b, { p with free := rest })

/-- `Put`: return a buffer to the pool. -/
def poolPut (p : BufferPool) (b : Nat) : BufferPool :=
  { p with free := p.free ++ [b] }

/-- Outcome of the HTTP client call: transport failure, or a status code
with a body. -/
inductive HttpResponse where
  | failed
  | resp (status : Nat) (body : Body)
  deriving DecidableEq

/-- Result of a successful `Download`: the returned bytes together with the
id of the pooled buffer backing the returned slice (`b.Bytes()` aliases the
storage of the buffer, it does not copy). -/
structure DownloadResult where
  bytes : Body
  backing : Nat
  deriving DecidableEq

/-- `Download` of `defaultDownloader`: non-200 statuses and transport
errors fail before a buffer is taken; otherwise a pooled buffer is taken,
filled from the response body, and returned via `b.Bytes()` — while the
deferred `d.pool.Put(b)` executes as the function returns, before the
caller can use the returned slice.  The second component is the pool state
at return. -/
def Download (pool : BufferPool) (response : HttpResponse) :
    Except CrawlError DownloadResult × BufferPool :=
  match response with
  | HttpResponse.failed => (Except.error (CrawlError.network 0), pool)
  | HttpResponse.resp status body =>
      if status ≠ 200 then
        (Except.error CrawlError.badResponse, pool)
      else
        let bp := poolGet pool
        (Except.ok { bytes := body, backing := bp.1 }, poolPut bp.2 bp.1)

/-- An `Options` value carrying an extractor override. -/
def optionsWithExtractor : Options :=
  { MaxWorkers := 10, MaxRetries := 2, hasDownloader := false,
    hasExtractor := true, hasCallback := false }

/-- An `Options` value with no overrides. -/
def optionsPlain : Options :=
  { MaxWorkers := 10, MaxRetries := 2, hasDownloader := false,
    hasExtractor := false, hasCallback := false }

/-- A root URL rejected by the default extractor (no scheme, not rooted;
one of the invalid vectors of the extractor test). -/
def invalidRootUrl : Str := "monzo.me/".toList

/-- Invariant of one extraction pass: the link list and the asset URL list
are duplicate-free, and the two dedup sets cover them. -/
def ExtractInv (st : ExtractState) : Prop :=
  st.links.Nodup ∧ (st.assets.map Asset.url).Nodup ∧
    (∀ x ∈ st.links, x ∈ st.setLinks) ∧ (∀ a ∈ st.assets, a.url ∈ st.setAssets)

/-- The extractor for the root `http://example.com/` (the domain of the
extractor test). -/
def exampleExtractor : defaultExtractor :=
  { domain := { scheme := "http".toList, host := "example.com".toList, path := "/".toList } }

/-- Anchor tokens whose hrefs are a protocol-relative same-host reference
and a scheme-rooted reference. -/
def cexToks : List Token :=
  [Token.startTag "a".toList [("href".toList, "//example.com/x".toList)],
   Token.startTag "a".toList [("href".toList, "x:/a".toList)]]

@[simp] theorem mapGet_mapSet_self {α : Type} (m : List (Str × α)) (k : Str) (v : α) :
    mapGet (mapSet m k v) k = some v := by
  induction m with
  | nil => simp [mapGet, mapSet]
  | cons p rest ih =>
    obtain ⟨k', v'⟩ := p
    by_cases h : k' = k <;> simp [mapGet, mapSet, h, ih]

theorem mapGet_mapSet_ne {α : Type} (m : List (Str × α)) (k k' : Str) (v : α)
    (h : k' ≠ k) : mapGet (mapSet m k v) k' = mapGet m k' := by
  have hk : ¬(k = k') := fun hh => h hh.symm
  induction m with
  | nil => simp [mapGet, mapSet, hk]
  | cons p rest ih =>
    obtain ⟨k₀, v₀⟩ := p
    by_cases h₀ : k₀ = k
    · subst h₀
      simp [mapGet, mapSet, hk]
    · simp [mapGet, mapSet, h₀, ih]

@[simp] theorem mapGet_mapModify_self {α : Type} (m : List (Str × α)) (k : Str) (f : α → α) :
    mapGet (mapModify m k f) k = (mapGet m k).map f := by
  induction m with
  | nil => simp [mapGet, mapModify]
  | cons p rest ih =>
    obtain ⟨k', v'⟩ := p
    by_cases h : k' = k <;> simp [mapGet, mapModify, h, ih]

theorem mapGet_mapModify_ne {α : Type} (m : List (Str × α)) (k k' : Str) (f : α → α)
    (h : k' ≠ k) : mapGet (mapModify m k f) k' = mapGet m k' := by
  have hk : ¬(k = k') := fun hh => h hh.symm
  induction m with
  | nil => simp [mapGet, mapModify]
  | cons p rest ih =>
    obtain ⟨k₀, v₀⟩ := p
    by_cases h₀ : k₀ = k
    · subst h₀
      simp [mapGet, mapModify, hk]
    · simp [mapGet, mapModify, h₀, ih]

@[simp] theorem retryCount_markRetry_self (s : CrawlState) (url : Str) :
    retryCount (markRetry s url) url = retryCount s url + 1 := by
  simp [retryCount, markRetry, mapGetD]


/-- `handleLink` neither changes the dispatched flag of a visited URL nor
removes it from the graph: the dispatch branch touches only the flag of the
(necessarily unvisited) link. -/
theorem handleLink_processed (maxRetries : Nat) (hasCallback : Bool) (s : CrawlState)
    (page : Page) (resultUrl link u : Str)
    (hu : (mapGet s.sites u).isSome = true) :
    isBeingProcessed (handleLink maxRetries hasCallback s page resultUrl link) u
        = isBeingProcessed s u ∧
    (mapGet (handleLink maxRetries hasCallback s page resultUrl link).sites u).isSome = true := by
  unfold handleLink
  by_cases hv : hasVisited s link
  · simp only [hv, if_true]
    refine ⟨rfl, ?_⟩
    unfold addLinkedFrom
    simp only []
    by_cases hul : u = link
    · subst hul
      rw [mapGet_mapModify_self]
      revert hu
      cases mapGet s.sites u <;> simp
    · rw [mapGet_mapModify_ne _ _ _ _ hul]
      exact hu
  · have hne : ¬ (u = link) := by
      intro hh
      subst hh
      rw [hasVisited, hu] at hv
      exact hv rfl
    by_cases hcond : (!(isBeingProcessed s link) && shouldRetry maxRetries s link) = true
    · rw [if_neg hv, if_pos hcond]
      cases hasCallback <;>
        simp [isBeingProcessed, markBeingProcessed, mapGetD,
          mapGet_mapSet_ne _ _ _ _ hne, hu]
    · rw [if_neg hv, if_neg hcond]
      exact ⟨rfl, hu⟩

/-- Folding the per-link handling over a link list preserves the dispatched
flag of any URL already registered in the graph. -/
theorem foldLinks_processed (maxRetries : Nat) (hasCallback : Bool) (page : Page)
    (resultUrl : Str) :
    ∀ (links : List Str) (s : CrawlState) (u : Str),
      (mapGet s.sites u).isSome = true →
      isBeingProcessed ((links.foldl
          (fun acc link => handleLink maxRetries hasCallback acc page resultUrl link) s)) u
        = isBeingProcessed s u := by
  intro links
  induction links with
  | nil => intro s u _; rfl
  | cons l ls ih =>
    intro s u hu
    obtain ⟨h1, h2⟩ := handleLink_processed maxRetries hasCallback s page resultUrl l u hu
    simp only [List.foldl_cons]
    rw [ih _ u h2, h1]

/-- Extracting a fetch-result leaves the dispatched flag of the result's own
URL untouched: the new page is registered before the link walk, so the
already-visited branch is taken whenever the URL appears among its own
links, and every other branch touches only other URLs. -/
theorem collectResult_processed (E : ExtractorM) (maxRetries : Nat) (hasCallback : Bool)
    (s : CrawlState) (r : result) :
    isBeingProcessed (collectResult E maxRetries hasCallback s r) r.url
      = isBeingProcessed s r.url := by
  unfold collectResult
  cases hE : E r.body with
  | error e => rfl
  | ok tla =>
    obtain ⟨title, links, assets⟩ := tla
    simp only []
    have hpres : (mapGet (addLinksTo
        (markVisited s r.url
          { title := title, url := r.url, linksTo := [], linkedFrom := [], assets := assets })
        r.frm r.url).sites r.url).isSome = true := by
      unfold addLinksTo markVisited
      simp only []
      by_cases hfr : r.url = r.frm
      · rw [← hfr, mapGet_mapModify_self, mapGet_mapSet_self]
        simp
      · rw [mapGet_mapModify_ne _ _ _ _ hfr, mapGet_mapSet_self]
        simp
    have hfold := foldLinks_processed maxRetries hasCallback
      { title := title, url := r.url, linksTo := [], linkedFrom := [], assets := assets }
      r.url links
      (addLinksTo (markVisited s r.url
        { title := title, url := r.url, linksTo := [], linkedFrom := [], assets := assets })
        r.frm r.url) r.url hpres
    exact hfold

/-- C2 counterexample: with a downloader that succeeds immediately, after the
fetch task finishes, the fetch-result for the URL sits in the queue awaiting
an extraction worker, yet the dispatched flag — `true` at dispatch — has been
cleared to `false` (`markBeingProcessed(url, false)` runs on the success
path), contradicting the claim that the flag is still true while the result
awaits extraction. -/
theorem dispatched_flag_cleared_on_success_cex :
    (crawl okDownloader 2 urlA sentinelKey dispatchedState).results =
      [{ url := urlA, frm := sentinelKey, body := [1] }] ∧
    isBeingProcessed dispatchedState urlA = true ∧
    isBeingProcessed (crawl okDownloader 2 urlA sentinelKey dispatchedState) urlA = false := by
  have h : okDownloader urlA (retryCount dispatchedState urlA) = Except.ok [1] := rfl
  rw [crawl, h]
  exact ⟨rfl, rfl, rfl⟩

/-- C2 (amended): on download success the dispatched flag is cleared — set to
`false` — immediately, before the fetch-result is enqueued; while the result
waits for an extraction worker the flag is `false`, not `true`.  The
pending-work counter, the site graph and the retry counters are untouched by
the success path; and the extraction of a fetch-result leaves the flag of
the result's own URL unchanged (only the rediscovery of the URL as a link
of some other page can set it again). -/
theorem crawl_success_clears_flag (D : DownloaderM) (maxRetries : Nat) (url frm : Str)
    (s : CrawlState) (body : Body) (h : D url (retryCount s url) = Except.ok body) :
    isBeingProcessed (crawl D maxRetries url frm s) url = false ∧
    (crawl D maxRetries url frm s).results
        = s.results ++ [{ url := url, frm := frm, body := body }] ∧
    (crawl D maxRetries url frm s).wg = s.wg ∧
    (crawl D maxRetries url frm s).sites = s.sites ∧
    (crawl D maxRetries url frm s).retries = s.retries ∧
    (∀ (E : ExtractorM) (hasCallback : Bool) (s2 : CrawlState) (r : result),
      isBeingProcessed (collectResult E maxRetries hasCallback s2 r) r.url
        = isBeingProcessed s2 r.url) := by
  refine ⟨?_, ?_, ?_, ?_, ?_, ?_⟩
  · rw [crawl, h]
    simp [isBeingProcessed, markBeingProcessed, mapGetD]
  · rw [crawl, h]
    simp [markBeingProcessed]
  · rw [crawl, h]
    simp [markBeingProcessed]
  · rw [crawl, h]
    simp [markBeingProcessed]
  · rw [crawl, h]
    simp [markBeingProcessed]
  · intro E hasCallback s2 r
    exact collectResult_processed E maxRetries hasCallback s2 r

/-- Witness for `crawl_success_clears_flag` at a concrete input. -/
theorem crawl_success_clears_flag_witness :
    isBeingProcessed (crawl okDownloader 3 urlB sentinelKey emptyState) urlB = false ∧
    (crawl okDownloader 3 urlB sentinelKey emptyState).results =
      emptyState.results ++ [{ url := urlB, frm := sentinelKey, body := [1] }] :=
  let h := crawl_success_clears_flag okDownloader 3 urlB sentinelKey emptyState [1] rfl
  ⟨h.1, h.2.1⟩

/-- Helper for C4: under an always-failing downloader, the retry recursion
runs the counter up to `maxRetries` and retires the URL: exactly
`maxRetries + 1 - retryCount` further Downloader invocations, counter left at
`maxRetries`, dispatched flag cleared, pending-work counter decremented by
exactly one, nothing enqueued, graph untouched. -/
theorem crawl_allfail_aux (D : DownloaderM) (maxRetries : Nat) (url frm : Str)
    (hfail : ∀ i, ∃ e, D url i = Except.error e) :
    ∀ n s, maxRetries - retryCount s url = n → retryCount s url ≤ maxRetries →
      (crawl D maxRetries url frm s).downloads
          = s.downloads + (maxRetries + 1 - retryCount s url) ∧
      retryCount (crawl D maxRetries url frm s) url = maxRetries ∧
      isBeingProcessed (crawl D maxRetries url frm s) url = false ∧
      (crawl D maxRetries url frm s).wg = s.wg - 1 ∧
      (crawl D maxRetries url frm s).results = s.results ∧
      (crawl D maxRetries url frm s).sites = s.sites := by
  intro n
  induction n with
  | zero =>
    intro s hn hle
    have hrc : retryCount s url = maxRetries := by omega
    obtain ⟨e, he⟩ := hfail (retryCount s url)
    rw [crawl, he]
    simp only [retryCount, mapGetD] at hrc
    simp [shouldRetry, retryCount, markBeingProcessed, isBeingProcessed, mapGetD, hrc]
  | succ n ih =>
    intro s hn hle
    have hrc : retryCount s url < maxRetries := by omega
    obtain ⟨e, he⟩ := hfail (retryCount s url)
    rw [crawl, he]
    simp only [retryCount, mapGetD] at hrc hn hle
    have key := ih (markRetry { s with downloads := s.downloads + 1, errors := s.errors ++ [e] } url)
    simp only [retryCount_markRetry_self] at key
    simp only [retryCount, mapGetD] at key
    simp [shouldRetry, retryCount, mapGetD, hrc, markRetry] at key ⊢
    obtain ⟨k1, k2, k3, k4, k5, k6⟩ := key (by omega) (by omega)
    exact ⟨by omega, k2, k3, k4, k5, k6⟩

/-- Helper for C4: whatever the downloader does, one fetch task performs at
most `maxRetries + 1 - retryCount` Downloader invocations. -/
theorem crawl_downloads_le_aux (D : DownloaderM) (maxRetries : Nat) (url frm : Str) :
    ∀ n s, maxRetries - retryCount s url = n → retryCount s url ≤ maxRetries →
      (crawl D maxRetries url frm s).downloads
        ≤ s.downloads + (maxRetries + 1 - retryCount s url) := by
  intro n
  induction n with
  | zero =>
    intro s hn hle
    have hrc : retryCount s url = maxRetries := by omega
    rw [crawl]
    cases hD : D url (retryCount s url) with
    | ok body =>
      simp [markBeingProcessed]
      omega
    | error e =>
      simp only [retryCount, mapGetD] at hrc
      simp [shouldRetry, retryCount, mapGetD, hrc, markBeingProcessed]
  | succ n ih =>
    intro s hn hle
    have hrc : retryCount s url < maxRetries := by omega
    rw [crawl]
    cases hD : D url (retryCount s url) with
    | ok body =>
      simp [markBeingProcessed]
      omega
    | error e =>
      simp only [retryCount, mapGetD] at hrc hn hle
      have key := ih (markRetry { s with downloads := s.downloads + 1, errors := s.errors ++ [e] } url)
      simp only [retryCount_markRetry_self] at key
      simp only [retryCount, mapGetD] at key
      simp [shouldRetry, retryCount, mapGetD, hrc, markRetry] at key ⊢
      have h2 := key (by omega) (by omega)
      omega

/-- C4: a fetch task started on a URL whose cumulative retry counter is
within budget terminates after at most `maxRetries + 1 - retryCount`
Downloader invocations (so at most `maxRetries + 1`, fewer when the
never-reset counter is already positive); and when every attempt fails, each
failure below the budget increments the counter and retries immediately, so
that the task makes exactly that many invocations, leaves the counter at
`maxRetries`, clears the dispatched flag, decrements the pending-work
counter exactly once, and enqueues no fetch-result. -/
theorem crawl_retry_termination (D : DownloaderM) (maxRetries : Nat) (url frm : Str)
    (s : CrawlState) (hle : retryCount s url ≤ maxRetries) :
    ((crawl D maxRetries url frm s).downloads
        ≤ s.downloads + (maxRetries + 1 - retryCount s url)) ∧
    ((∀ i, ∃ e, D url i = Except.error e) →
      (crawl D maxRetries url frm s).downloads
          = s.downloads + (maxRetries + 1 - retryCount s url) ∧
      retryCount (crawl D maxRetries url frm s) url = maxRetries ∧
      isBeingProcessed (crawl D maxRetries url frm s) url = false ∧
      (crawl D maxRetries url frm s).wg = s.wg - 1 ∧
      (crawl D maxRetries url frm s).results = s.results) :=
  ⟨crawl_downloads_le_aux D maxRetries url frm _ s rfl hle,
   fun hfail => by
     obtain ⟨k1, k2, k3, k4, k5, _⟩ := crawl_allfail_aux D maxRetries url frm hfail _ s rfl hle
     exact ⟨k1, k2, k3, k4, k5⟩⟩

/-- Witness for `crawl_retry_termination` at a concrete input: with
`maxRetries = 2` and an always-failing downloader, three download attempts
happen and the pending-work counter drops by one. -/
theorem crawl_retry_termination_witness :
    (crawl failDownloader 2 urlA sentinelKey dispatchedState).downloads
        = dispatchedState.downloads + (2 + 1 - retryCount dispatchedState urlA) ∧
    isBeingProcessed (crawl failDownloader 2 urlA sentinelKey dispatchedState) urlA = false ∧
    (crawl failDownloader 2 urlA sentinelKey dispatchedState).wg = dispatchedState.wg - 1 :=
  let h := (crawl_retry_termination failDownloader 2 urlA sentinelKey dispatchedState
      (by decide)).2 (fun _ => ⟨CrawlError.badResponse, rfl⟩)
  ⟨h.1, h.2.2.1, h.2.2.2.1⟩

/-- C5: a permanently failed URL — its retry counter has reached
`maxRetries` — is never dispatched again on rediscovery: the per-link branch
of `collect` spawns no fetch task for it, does not increment the
pending-work counter, and invokes no callback. -/
theorem exhausted_url_never_redispatched (maxRetries : Nat) (hasCallback : Bool)
    (s : CrawlState) (page : Page) (resultUrl link : Str)
    (h : maxRetries ≤ retryCount s link) :
    (handleLink maxRetries hasCallback s page resultUrl link).tasks = s.tasks ∧
    (handleLink maxRetries hasCallback s page resultUrl link).wg = s.wg ∧
    (handleLink maxRetries hasCallback s page resultUrl link).callbacks = s.callbacks := by
  have hs : shouldRetry maxRetries s link = false := by
    simp [shouldRetry]
    omega
  unfold handleLink
  by_cases hv : hasVisited s link <;> simp [hv, hs, addLinkedFrom]

/-- Witness for `exhausted_url_never_redispatched` at a concrete input. -/
theorem exhausted_url_never_redispatched_witness :
    (handleLink 2 false exhaustedState pageA urlA urlB).tasks = exhaustedState.tasks ∧
    (handleLink 2 false exhaustedState pageA urlA urlB).wg = exhaustedState.wg :=
  let h := exhausted_url_never_redispatched 2 false exhaustedState pageA urlA urlB (by decide)
  ⟨h.1, h.2.1⟩

/-- `handleLink` leaves every registered page in place, changing at most the
`linkedFrom` list of the target link, which it extends by the discovering
page. -/
theorem handleLink_sites (maxRetries : Nat) (hasCallback : Bool) (s : CrawlState)
    (page : Page) (resultUrl link : Str) (u : Str) (q : Page)
    (hq : mapGet s.sites u = some q) :
    ∃ q' ext,
      mapGet (handleLink maxRetries hasCallback s page resultUrl link).sites u = some q' ∧
      q'.title = q.title ∧ q'.url = q.url ∧ q'.linksTo = q.linksTo ∧
      q'.assets = q.assets ∧ q'.linkedFrom = q.linkedFrom ++ ext ∧
      ∀ x ∈ ext, x = page.url := by
  unfold handleLink
  by_cases hv : hasVisited s link
  · by_cases hul : u = link
    · subst hul
      refine ⟨{ q with linkedFrom := q.linkedFrom ++ [page.url] }, [page.url],
        ?_, rfl, rfl, rfl, rfl, rfl, by simp⟩
      simp [hv, addLinkedFrom, hq]
    · refine ⟨q, [], ?_, rfl, rfl, rfl, rfl, by simp, by simp⟩
      have hul2 : ¬ (u = link) := hul
      simp [hv, addLinkedFrom, mapGet_mapModify_ne _ _ _ _ hul2, hq]
  · refine ⟨q, [], ?_, rfl, rfl, rfl, rfl, by simp, by simp⟩
    by_cases hcond : (!(isBeingProcessed s link) && shouldRetry maxRetries s link) = true <;>
      cases hasCallback <;> simp [hv, hcond, markBeingProcessed, hq]

/-- Folding `handleLink` over a link list preserves every registered page
except for `linkedFrom` extensions, all of whose entries are the discovering
page. -/
theorem foldLinks_sites (maxRetries : Nat) (hasCallback : Bool) (page : Page)
    (resultUrl : Str) :
    ∀ (links : List Str) (s : CrawlState) (u : Str) (q : Page),
      mapGet s.sites u = some q →
      ∃ q' ext,
        mapGet ((links.foldl
            (fun acc link => handleLink maxRetries hasCallback acc page resultUrl link) s)).sites u
          = some q' ∧
        q'.title = q.title ∧ q'.url = q.url ∧ q'.linksTo = q.linksTo ∧
        q'.assets = q.assets ∧ q'.linkedFrom = q.linkedFrom ++ ext ∧
        ∀ x ∈ ext, x = page.url := by
  intro links
  induction links with
  | nil =>
    intro s u q hq
    exact ⟨q, [], by simpa using hq, rfl, rfl, rfl, rfl, by simp, by simp⟩
  | cons l ls ih =>
    intro s u q hq
    obtain ⟨q1, ext1, h1, ht1, hu1, hl1, ha1, hlf1, hx1⟩ :=
      handleLink_sites maxRetries hasCallback s page resultUrl l u q hq
    obtain ⟨q', ext', h2, ht2, hu2, hl2, ha2, hlf2, hx2⟩ :=
      ih (handleLink maxRetries hasCallback s page resultUrl l) u q1 h1
    refine ⟨q', ext1 ++ ext', by simpa using h2, ht2.trans ht1, hu2.trans hu1,
      hl2.trans hl1, ha2.trans ha1, ?_, ?_⟩
    · rw [hlf2, hlf1, List.append_assoc]
    · intro x hx
      rcases List.mem_append.mp hx with h | h
      · exact hx1 x h
      · exact hx2 x h

/-- On a successful extraction, the graph after `collectResult` is the graph
after registering the new page, adding the forward edge on the originating
page, and walking the links. -/
theorem collectResult_sites_eq (E : ExtractorM) (maxRetries : Nat) (hasCallback : Bool)
    (s : CrawlState) (r : result) (title : Str) (links : List Str) (assets : List Asset)
    (hE : E r.body = Except.ok (title, links, assets)) :
    (collectResult E maxRetries hasCallback s r).sites =
      (links.foldl
        (fun acc link => handleLink maxRetries hasCallback acc
          { title := title, url := r.url, linksTo := [], linkedFrom := [], assets := assets }
          r.url link)
        (addLinksTo
          (markVisited s r.url
            { title := title, url := r.url, linksTo := [], linkedFrom := [], assets := assets })
          r.frm r.url)).sites := by
  simp [collectResult, hE]

/-- C6: first discovery is forward-only.  Extracting page B from a result
originating at page A appends B to the `LinksTo` list of A while the
`LinkedFrom` list of B gains no entry for A; and in the per-link step, a
page gains a `LinkedFrom` entry only when the discovered link is already
visited, in which case the discovering page is appended exactly once. -/
theorem link_edge_asymmetry (E : ExtractorM) (maxRetries : Nat) (hasCallback : Bool)
    (s : CrawlState) (r : result) (title : Str) (links : List Str) (assets : List Asset)
    (hE : E r.body = Except.ok (title, links, assets))
    (pA : Page) (hA : mapGet s.sites r.frm = some pA) (hne : r.frm ≠ r.url) :
    (∃ pA', mapGet (collectResult E maxRetries hasCallback s r).sites r.frm = some pA' ∧
        pA'.linksTo = pA.linksTo ++ [r.url]) ∧
    (∃ pB, mapGet (collectResult E maxRetries hasCallback s r).sites r.url = some pB ∧
        r.frm ∉ pB.linkedFrom) ∧
    (∀ (s₀ : CrawlState) (page : Page) (ru link : Str),
      (hasVisited s₀ link = false →
        (handleLink maxRetries hasCallback s₀ page ru link).sites = s₀.sites) ∧
      (∀ q, mapGet s₀.sites link = some q →
        mapGet (handleLink maxRetries hasCallback s₀ page ru link).sites link
          = some { q with linkedFrom := q.linkedFrom ++ [page.url] })) := by
  have hsites := collectResult_sites_eq E maxRetries hasCallback s r title links assets hE
  refine ⟨?_, ?_, ?_⟩
  · have h1 : mapGet (markVisited s r.url
        { title := title, url := r.url, linksTo := [], linkedFrom := [],
          assets := assets }).sites r.frm = some pA := by
      rw [markVisited]
      simpa using (mapGet_mapSet_ne s.sites r.url r.frm _ hne).trans hA
    have h2 : mapGet (addLinksTo
        (markVisited s r.url
          { title := title, url := r.url, linksTo := [], linkedFrom := [], assets := assets })
        r.frm r.url).sites r.frm
        = some { pA with linksTo := pA.linksTo ++ [r.url] } := by
      simp [addLinksTo, h1]
    obtain ⟨q', ext, hq', ht, hu, hl, ha, hlf, hx⟩ :=
      foldLinks_sites maxRetries hasCallback
        { title := title, url := r.url, linksTo := [], linkedFrom := [], assets := assets }
        r.url links _ r.frm _ h2
    refine ⟨q', ?_, by simpa using hl⟩
    rw [hsites]
    exact hq'
  · have h1 : mapGet (markVisited s r.url
        { title := title, url := r.url, linksTo := [], linkedFrom := [],
          assets := assets }).sites r.url
        = some { title := title, url := r.url, linksTo := [], linkedFrom := [],
                 assets := assets } := by
      rw [markVisited]
      simp
    have hne2 : r.url ≠ r.frm := fun hh => hne hh.symm
    have h2 : mapGet (addLinksTo
        (markVisited s r.url
          { title := title, url := r.url, linksTo := [], linkedFrom := [], assets := assets })
        r.frm r.url).sites r.url
        = some { title := title, url := r.url, linksTo := [], linkedFrom := [],
                 assets := assets } := by
      rw [addLinksTo]
      simpa using (mapGet_mapModify_ne _ _ _ _ hne2).trans h1
    obtain ⟨q', ext, hq', ht, hu, hl, ha, hlf, hx⟩ :=
      foldLinks_sites maxRetries hasCallback
        { title := title, url := r.url, linksTo := [], linkedFrom := [], assets := assets }
        r.url links _ r.url _ h2
    refine ⟨q', by rw [hsites]; exact hq', ?_⟩
    intro hmem
    rw [hlf] at hmem
    simp at hmem
    exact hne (hx _ hmem)
  · intro s₀ page ru link
    constructor
    · intro hv
      unfold handleLink
      rw [hv]
      by_cases hcond : (!(isBeingProcessed s₀ link) && shouldRetry maxRetries s₀ link) = true <;>
        cases hasCallback <;> simp [hcond, markBeingProcessed]
    · intro q hq
      have hv : hasVisited s₀ link = true := by simp [hasVisited, hq]
      unfold handleLink
      rw [hv]
      simp [addLinkedFrom, hq]

/-- Witness for `link_edge_asymmetry` at a concrete input: extracting
`urlB` (no outgoing links) from a result originating at `urlA`. -/
theorem link_edge_asymmetry_witness :
    (∃ pA', mapGet (collectResult extractorNone 2 false stateWithA resultBfromA).sites urlA
        = some pA' ∧ pA'.linksTo = pageA.linksTo ++ [urlB]) ∧
    (∃ pB, mapGet (collectResult extractorNone 2 false stateWithA resultBfromA).sites urlB
        = some pB ∧ urlA ∉ pB.linkedFrom) :=
  let h := link_edge_asymmetry extractorNone 2 false stateWithA resultBfromA [] [] []
    rfl pageA rfl (by decide)
  ⟨h.1, h.2.1⟩

/-- C1 counterexample: when the 100-slot error buffer is full, the send
`c.errors <- err` blocks until a reader drains the channel — the error is
not silently dropped with the reporting task continuing immediately. -/
theorem error_send_blocks_when_full_cex :
    reportError (List.replicate 100 CrawlError.badResponse) CrawlError.invalidHtml
      = SendOutcome.blocked ∧
    reportError (List.replicate 100 CrawlError.badResponse) CrawlError.invalidHtml
      ≠ SendOutcome.sent (List.replicate 100 CrawlError.badResponse) := by
  decide

/-- C1 (amended): error reporting is bounded-buffered but blocking, not
drop-on-overflow.  A send on the capacity-100 error channel completes
immediately, appending the error, exactly when the buffer is below
capacity; when the buffer is full the sender blocks until a reader drains
the channel, so the error is never dropped but crawl progress can stall. -/
theorem errors_send_bounded_blocking (buffer : List CrawlError) (e : CrawlError) :
    (buffer.length < 100 → reportError buffer e = SendOutcome.sent (buffer ++ [e])) ∧
    (100 ≤ buffer.length → reportError buffer e = SendOutcome.blocked) := by
  refine ⟨fun h => ?_, fun h => ?_⟩
  · simp [reportError, chanSend, h]
  · have h2 : ¬ (buffer.length < 100) := by omega
    simp [reportError, chanSend, h2]

/-- Witness for `errors_send_bounded_blocking` at concrete inputs. -/
theorem errors_send_bounded_blocking_witness :
    reportError [] CrawlError.badResponse = SendOutcome.sent [CrawlError.badResponse] ∧
    reportError (List.replicate 101 CrawlError.invalidURL) CrawlError.badResponse
      = SendOutcome.blocked :=
  ⟨by simpa using (errors_send_bounded_blocking [] CrawlError.badResponse).1 (by decide),
   (errors_send_bounded_blocking (List.replicate 101 CrawlError.invalidURL)
      CrawlError.badResponse).2 (by simp)⟩

/-- Element of the coordinator trace at offset `j` past the stop signals. -/
theorem crawlCoordinatorTrace_getElem_tail (n j : Nat) :
    (crawlCoordinatorTrace n)[4 + n + j]? =
      [CoordEvent.waitWorkersDone, CoordEvent.closeResults, CoordEvent.removeSentinel,
        CoordEvent.clearMaps, CoordEvent.signalDone][j]? := by
  have hlen : ([CoordEvent.addCounter, CoordEvent.addSentinel, CoordEvent.dispatchRoot,
      CoordEvent.waitCounterZero] ++ stopGoroutines (crawlQuitChannels n)).length = 4 + n := by
    simp [stopGoroutines, crawlQuitChannels]
    omega
  rw [crawlCoordinatorTrace, List.getElem?_append_right (by rw [hlen]; omega)]
  rw [hlen]
  have hidx : 4 + n + j - (4 + n) = j := by omega
  rw [hidx]

/-- Element of the coordinator trace at offset `j` before the stop
signals. -/
theorem crawlCoordinatorTrace_getElem_head (n j : Nat) (hj : j < 4) :
    (crawlCoordinatorTrace n)[j]? =
      [CoordEvent.addCounter, CoordEvent.addSentinel, CoordEvent.dispatchRoot,
        CoordEvent.waitCounterZero][j]? := by
  rw [crawlCoordinatorTrace, List.getElem?_append, if_pos (by
    simp only [List.length_append, List.length_cons, List.length_nil, stopGoroutines,
      crawlQuitChannels, List.length_map, List.length_range]
    omega)]
  rw [List.getElem?_append, if_pos (by simp only [List.length_cons, List.length_nil]; omega)]

/-- C3: after the pending-work counter returns to zero, the coordinator
sends exactly one stop signal to each of the `n` worker quit channels (none
to any other index), every stop signal sits strictly between the
counter-zero wait and the worker-acknowledgement wait, and only after the
acknowledgement wait do closing the result queue, removing the sentinel and
the completion signal follow, in that order; the completion signal is the
last event of the trace and occurs exactly once. -/
theorem coordinator_shutdown_order (n : Nat) :
    ((crawlCoordinatorTrace n).count CoordEvent.signalDone = 1) ∧
    ((crawlCoordinatorTrace n).getLast? = some CoordEvent.signalDone) ∧
    (∀ w, w < n → (crawlCoordinatorTrace n).count (CoordEvent.stopSignal w) = 1) ∧
    (∀ w, n ≤ w → (crawlCoordinatorTrace n).count (CoordEvent.stopSignal w) = 0) ∧
    (∀ i w, (crawlCoordinatorTrace n)[i]? = some (CoordEvent.stopSignal w) →
      3 < i ∧ i < 4 + n) ∧
    ((crawlCoordinatorTrace n)[3]? = some CoordEvent.waitCounterZero ∧
     (crawlCoordinatorTrace n)[4 + n]? = some CoordEvent.waitWorkersDone ∧
     (crawlCoordinatorTrace n)[5 + n]? = some CoordEvent.closeResults ∧
     (crawlCoordinatorTrace n)[6 + n]? = some CoordEvent.removeSentinel ∧
     (crawlCoordinatorTrace n)[8 + n]? = some CoordEvent.signalDone ∧
     (crawlCoordinatorTrace n).length = 9 + n) := by
  have hinj : ∀ a b : Nat, CoordEvent.stopSignal a = CoordEvent.stopSignal b → a = b :=
    fun a b hab => by injection hab
  refine ⟨?_, ?_, ?_, ?_, ?_, ?_, ?_, ?_, ?_, ?_, ?_⟩
  · simp [crawlCoordinatorTrace, stopGoroutines, crawlQuitChannels, List.count_append,
      List.count_eq_zero, List.mem_map]
  · rw [crawlCoordinatorTrace, List.append_assoc, List.getLast?_append, List.getLast?_append]
    rfl
  · intro w hw
    have hM : (stopGoroutines (crawlQuitChannels n)).count (CoordEvent.stopSignal w)
        = (List.range n).count w := by
      rw [stopGoroutines, crawlQuitChannels,
        List.count_map_of_injective _ CoordEvent.stopSignal hinj w]
    simp [crawlCoordinatorTrace, List.count_append, hM,
      List.count_eq_one_of_mem (List.nodup_range n) (List.mem_range.mpr hw)]
  · intro w hw
    have hM : (stopGoroutines (crawlQuitChannels n)).count (CoordEvent.stopSignal w)
        = (List.range n).count w := by
      rw [stopGoroutines, crawlQuitChannels,
        List.count_map_of_injective _ CoordEvent.stopSignal hinj w]
    have hR : (List.range n).count w = 0 := by
      rw [List.count_eq_zero]
      simp only [List.mem_range]
      omega
    simp [crawlCoordinatorTrace, List.count_append, hM, hR]
  · intro i w hw
    by_cases h4 : i < 4
    · exfalso
      rw [crawlCoordinatorTrace_getElem_head n i h4] at hw
      interval_cases i <;> simp at hw
    · by_cases hn : i < 4 + n
      · exact ⟨by omega, hn⟩
      · exfalso
        obtain ⟨j, rfl⟩ : ∃ j, i = 4 + n + j := ⟨i - (4 + n), by omega⟩
        rw [crawlCoordinatorTrace_getElem_tail n j] at hw
        by_cases hj : j < 5
        · interval_cases j <;> simp at hw
        · rw [List.getElem?_eq_none (by simp; omega)] at hw
          exact Option.noConfusion hw
  · rw [crawlCoordinatorTrace_getElem_head n 3 (by omega)]
    rfl
  · rw [show 4 + n = 4 + n + 0 by omega, crawlCoordinatorTrace_getElem_tail n 0]
    rfl
  · rw [show 5 + n = 4 + n + 1 by omega, crawlCoordinatorTrace_getElem_tail n 1]
    rfl
  · rw [show 6 + n = 4 + n + 2 by omega, crawlCoordinatorTrace_getElem_tail n 2]
    rfl
  · rw [show 8 + n = 4 + n + 4 by omega, crawlCoordinatorTrace_getElem_tail n 4]
    rfl
  · simp [crawlCoordinatorTrace, stopGoroutines, crawlQuitChannels]
    omega

/-- Witness for `coordinator_shutdown_order` at `n = 2`, discharging the
conditional conjuncts at concrete worker indices. -/
theorem coordinator_shutdown_order_witness :
    (crawlCoordinatorTrace 2).count (CoordEvent.stopSignal 0) = 1 ∧
    (crawlCoordinatorTrace 2).count (CoordEvent.stopSignal 5) = 0 ∧
    (crawlCoordinatorTrace 2).getLast? = some CoordEvent.signalDone ∧
    (3 < 4 ∧ 4 < 4 + 2) :=
  let h := coordinator_shutdown_order 2
  ⟨h.2.2.1 0 (by decide), h.2.2.2.1 5 (by decide), h.2.1,
    h.2.2.2.2.1 4 0 (by decide)⟩

/-- C7: evaluating `Download` at a failing input — a pool holding one
buffer and a 200 response with a body.  The call succeeds and returns bytes
backed by buffer 0, but buffer 0 is already back in the free pool when the
call returns (the deferred `Put` ran first), so a later `Get` can hand the
same buffer to another fetch and overwrite the bytes under the caller. -/
theorem download_returns_pooled_buffer :
    (Download { free := [0], next := 1 } (HttpResponse.resp 200 [7, 7])).1
      = Except.ok { bytes := [7, 7], backing := 0 } ∧
    0 ∈ ((Download { free := [0], next := 1 } (HttpResponse.resp 200 [7, 7])).2).free :=
  ⟨rfl, by decide⟩

/-- C8 counterexample: the root URL `monzo.me/` is invalid — the default
extractor (and hence `NewCrawler`) rejects it — yet `NewCrawlerWithOptions`
succeeds on it when an Extractor override is supplied, because the root URL
is then never validated.  So construction failure is not equivalent to root
URL invalidity. -/
theorem construction_ok_invalid_url_cex :
    exceptOk (NewDefaultExtractor invalidRootUrl) = false ∧
    exceptOk (NewCrawler invalidRootUrl) = false ∧
    exceptOk (NewCrawlerWithOptions invalidRootUrl optionsWithExtractor) = true := by
  decide

/-- C8 (amended): construction fails iff no Extractor override is supplied
and the root URL is invalid; with an override, construction always
succeeds.  `NewCrawler` fails exactly when the default extractor rejects
the root, which happens exactly when `ParseRequestURI` fails or the parsed
URL lacks a scheme or a host.  Construction is a pure function: the error
is synchronous, before `Crawl` spawns any goroutine. -/
theorem construction_error_iff (url : Str) (options : Options) :
    (exceptOk (NewCrawlerWithOptions url options) = false
      ↔ (options.hasExtractor = false ∧ exceptOk (NewDefaultExtractor url) = false)) ∧
    (exceptOk (NewCrawler url) = exceptOk (NewDefaultExtractor url)) ∧
    (exceptOk (NewDefaultExtractor url) = false
      ↔ (parseRequestURI url = none ∨
          ∃ u, parseRequestURI url = some u ∧ (u.scheme = [] ∨ u.host = []))) := by
  refine ⟨?_, ?_, ?_⟩
  · cases hx : options.hasExtractor <;> simp only [NewCrawlerWithOptions, hx]
    · cases hE : NewDefaultExtractor url <;> simp [exceptOk]
    · simp [exceptOk]
  · unfold NewCrawler
    cases hE : NewDefaultExtractor url <;> simp [exceptOk]
  · unfold NewDefaultExtractor
    cases hP : parseRequestURI url with
    | none => simp [exceptOk]
    | some u =>
        by_cases hsh : u.scheme = [] ∨ u.host = [] <;> simp [exceptOk, hsh]

/-- Witness for `construction_error_iff` at a concrete input. -/
theorem construction_error_iff_witness :
    exceptOk (NewCrawler invalidRootUrl) = exceptOk (NewDefaultExtractor invalidRootUrl) :=
  (construction_error_iff invalidRootUrl optionsPlain).2.1

/-- `addAsset` preserves the dedup invariant. -/
theorem addAsset_extractInv (d : defaultExtractor) (st : ExtractState) (address : Str)
    (kind : AssetType) (h : ExtractInv st) : ExtractInv (addAsset d st address kind) := by
  obtain ⟨h1, h2, h3, h4⟩ := h
  unfold addAsset
  by_cases hf : isFileUrl address
  · simp only [hf, if_true]
    by_cases hmem : expandIfNeeded d.domain address ∈ st.setAssets
    · simp only [hmem, if_true]
      exact ⟨h1, h2, h3, h4⟩
    · simp only [hmem, if_false]
      refine ⟨h1, ?_, h3, ?_⟩
      · simp only [List.map_append, List.map_cons, List.map_nil]
        rw [List.nodup_append]
        refine ⟨h2, List.nodup_singleton _, ?_⟩
        intro x hx hx2
        simp at hx2
        subst hx2
        obtain ⟨a, ha, hau⟩ := List.mem_map.mp hx
        exact hmem (hau ▸ h4 a ha)
      · intro a ha
        rcases List.mem_append.mp ha with ha | ha
        · exact List.mem_cons_of_mem _ (h4 a ha)
        · simp at ha
          subst ha
          exact List.mem_cons_self _ _
  · simp only [hf, Bool.false_eq_true, if_false]
    exact ⟨h1, h2, h3, h4⟩

/-- `processHref` preserves the dedup invariant. -/
theorem processHref_extractInv (d : defaultExtractor) (st : ExtractState) (v : Str)
    (h : ExtractInv st) : ExtractInv (processHref d st v) := by
  obtain ⟨h1, h2, h3, h4⟩ := h
  unfold processHref
  by_cases hf : isFileUrl v
  · simp only [hf, if_true]
    by_cases hmem : expandIfNeeded d.domain v ∈ st.setAssets
    · simp only [hmem, if_true]
      exact ⟨h1, h2, h3, h4⟩
    · simp only [hmem, if_false]
      refine ⟨h1, ?_, h3, ?_⟩
      · simp only [List.map_append, List.map_cons, List.map_nil]
        rw [List.nodup_append]
        refine ⟨h2, List.nodup_singleton _, ?_⟩
        intro x hx hx2
        simp at hx2
        subst hx2
        obtain ⟨a, ha, hau⟩ := List.mem_map.mp hx
        exact hmem (hau ▸ h4 a ha)
      · intro a ha
        rcases List.mem_append.mp ha with ha | ha
        · exact List.mem_cons_of_mem _ (h4 a ha)
        · simp at ha
          subst ha
          exact List.mem_cons_self _ _
  · simp only [hf, Bool.false_eq_true, if_false]
    by_cases hs : isSameDomain d.domain v
    · simp only [hs, if_true]
      by_cases hmem : expandIfNeeded d.domain v ∈ st.setLinks
      · simp only [hmem, if_true]
        exact ⟨h1, h2, h3, h4⟩
      · simp only [hmem, if_false]
        refine ⟨?_, h2, ?_, h4⟩
        · rw [List.nodup_append]
          refine ⟨h1, List.nodup_singleton _, ?_⟩
          intro x hx hx2
          simp at hx2
          subst hx2
          exact hmem (h3 _ hx)
        · intro x hx
          rcases List.mem_append.mp hx with hx | hx
          · exact List.mem_cons_of_mem _ (h3 x hx)
          · simp at hx
            subst hx
            exact List.mem_cons_self _ _
    · simp only [hs, Bool.false_eq_true, if_false]
      exact ⟨h1, h2, h3, h4⟩

/-- Folding the `href` handling of the `a` case preserves any property
preserved by `processHref` on hrefs satisfying `Q`. -/
theorem foldl_processHref_inv (d : defaultExtractor) (P : ExtractState → Prop)
    (Q : Str → Prop)
    (hhref : ∀ st v, P st → Q v → P (processHref d st v)) :
    ∀ (attrs : List (Str × Str)) (st : ExtractState),
      (∀ v, (("href".toList, v) : Str × Str) ∈ attrs → Q v) → P st →
      P (attrs.foldl
        (fun acc kv => if kv.1 = "href".toList then processHref d acc kv.2 else acc) st) := by
  intro attrs
  induction attrs with
  | nil => intro st _ hP; exact hP
  | cons kv rest ih =>
    intro st hQ hP
    obtain ⟨k, v⟩ := kv
    simp only [List.foldl_cons]
    by_cases hk : k = "href".toList
    · subst hk
      simp only [if_pos rfl]
      exact ih _ (fun v2 hv2 => hQ v2 (List.mem_cons_of_mem _ hv2))
        (hhref st v hP (hQ v (List.mem_cons_self _ _)))
    · simp only [if_neg hk]
      exact ih _ (fun v2 hv2 => hQ v2 (List.mem_cons_of_mem _ hv2)) hP

/-- Folding an `addAsset` attribute pass preserves any property preserved
by `addAsset`. -/
theorem foldl_addAsset_inv (d : defaultExtractor) (P : ExtractState → Prop)
    (key : Str) (kind : AssetType)
    (hasset : ∀ st v, P st → P (addAsset d st v kind)) :
    ∀ (attrs : List (Str × Str)) (st : ExtractState), P st →
      P (attrs.foldl (fun acc kv => if kv.1 = key then addAsset d acc kv.2 kind else acc) st) := by
  intro attrs
  induction attrs with
  | nil => intro st hP; exact hP
  | cons kv rest ih =>
    intro st hP
    obtain ⟨k, v⟩ := kv
    simp only [List.foldl_cons]
    by_cases hk : k = key
    · subst hk
      simp only [if_pos rfl]
      exact ih _ (hasset st v hP)
    · simp only [if_neg hk]
      exact ih _ hP

/-- Unfolding: a `title` tag at the end of the token stream. -/
theorem extractLoop_title_last (d : defaultExtractor) (attrs : List (Str × Str))
    (st : ExtractState) :
    extractLoop d [Token.startTag "title".toList attrs] st
      = Except.ok (st.title, st.links, st.assets) := by
  rw [extractLoop.eq_def]
  simp

/-- Unfolding: a `title` tag followed by a tokenizer error. -/
theorem extractLoop_title_err (d : defaultExtractor) (attrs : List (Str × Str))
    (tail : List Token) (st : ExtractState) :
    extractLoop d (Token.startTag "title".toList attrs :: Token.errTok :: tail) st
      = Except.error CrawlError.invalidHtml := by
  rw [extractLoop.eq_def]
  simp

/-- Unfolding: a `title` tag followed by its text. -/
theorem extractLoop_title_text (d : defaultExtractor) (attrs : List (Str × Str))
    (data : Str) (rest2 : List Token) (st : ExtractState) :
    extractLoop d (Token.startTag "title".toList attrs :: Token.textTok data :: rest2) st
      = extractLoop d rest2 { st with title := trimSpace data } := by
  rw [extractLoop.eq_def]
  simp

/-- Unfolding: a `title` tag followed by a non-text, non-error token, which
is consumed without effect. -/
theorem extractLoop_title_other (d : defaultExtractor) (attrs : List (Str × Str))
    (head : Token) (rest2 : List Token) (st : ExtractState)
    (hne : head = Token.errTok → False)
    (htext : ∀ data, head = Token.textTok data → False) :
    extractLoop d (Token.startTag "title".toList attrs :: head :: rest2) st
      = extractLoop d rest2 st := by
  cases head with
  | errTok => exact absurd rfl hne
  | textTok data => exact absurd rfl (htext data)
  | startTag n a =>
      rw [extractLoop.eq_def]
      simp
  | otherTok =>
      rw [extractLoop.eq_def]
      simp

/-- Unfolding: the `a` case folds the href handling over the attributes. -/
theorem extractLoop_cons_a (d : defaultExtractor) (attrs : List (Str × Str))
    (rest : List Token) (st : ExtractState) :
    extractLoop d (Token.startTag "a".toList attrs :: rest) st
      = extractLoop d rest (attrs.foldl
          (fun acc kv => if kv.1 = "href".toList then processHref d acc kv.2 else acc) st) := by
  rw [extractLoop.eq_def]
  simp

/-- Unfolding: the `script` case. -/
theorem extractLoop_cons_script (d : defaultExtractor) (attrs : List (Str × Str))
    (rest : List Token) (st : ExtractState) :
    extractLoop d (Token.startTag "script".toList attrs :: rest) st
      = extractLoop d rest (attrs.foldl
          (fun acc kv =>
            if kv.1 = "src".toList then addAsset d acc kv.2 AssetType.Script else acc) st) := by
  rw [extractLoop.eq_def]
  simp

/-- Unfolding: the `img` case. -/
theorem extractLoop_cons_img (d : defaultExtractor) (attrs : List (Str × Str))
    (rest : List Token) (st : ExtractState) :
    extractLoop d (Token.startTag "img".toList attrs :: rest) st
      = extractLoop d rest (attrs.foldl
          (fun acc kv =>
            if kv.1 = "src".toList then addAsset d acc kv.2 AssetType.Image else acc) st) := by
  rw [extractLoop.eq_def]
  simp

/-- Unfolding: the `link` case. -/
theorem extractLoop_cons_link (d : defaultExtractor) (attrs : List (Str × Str))
    (rest : List Token) (st : ExtractState) :
    extractLoop d (Token.startTag "link".toList attrs :: rest) st
      = extractLoop d rest (attrs.foldl
          (fun acc kv =>
            if kv.1 = "href".toList then addAsset d acc kv.2 AssetType.Link else acc) st) := by
  rw [extractLoop.eq_def]
  simp

/-- Unfolding: any other start tag (including the unreachable `source`
case) is skipped. -/
theorem extractLoop_cons_other (d : defaultExtractor) (name : Str) (attrs : List (Str × Str))
    (rest : List Token) (st : ExtractState)
    (h1 : ¬ name = "title".toList) (h2 : ¬ name = "a".toList)
    (h3 : ¬ name = "script".toList) (h4 : ¬ name = "img".toList)
    (h5 : ¬ name = "link".toList) :
    extractLoop d (Token.startTag name attrs :: rest) st = extractLoop d rest st := by
  have g1 : ¬ name = ['t', 'i', 't', 'l', 'e'] := h1
  have g2 : ¬ name = ['a'] := h2
  have g3 : ¬ name = ['s', 'c', 'r', 'i', 'p', 't'] := h3
  have g4 : ¬ name = ['i', 'm', 'g'] := h4
  have g5 : ¬ name = ['l', 'i', 'n', 'k'] := h5
  rw [extractLoop.eq_def]
  simp [g1, g2, g3, g4, g5]

/-- Any property of the accumulator preserved by `processHref` (on hrefs
satisfying `Q`), by `addAsset` and by title updates is carried by the
extraction loop to its successful output. -/
theorem extractLoop_inv (d : defaultExtractor) (P : ExtractState → Prop) (Q : Str → Prop)
    (hhref : ∀ st v, P st → Q v → P (processHref d st v))
    (hasset : ∀ st v k, P st → P (addAsset d st v k))
    (htitle : ∀ st ti, P st → P { st with title := ti }) :
    ∀ (toks : List Token) (st : ExtractState),
      (∀ attrs, Token.startTag ("a".toList) attrs ∈ toks →
        ∀ v, (("href".toList, v) : Str × Str) ∈ attrs → Q v) →
      P st →
      ∀ t links assets, extractLoop d toks st = Except.ok (t, links, assets) →
      ∃ stF : ExtractState, P stF ∧ stF.title = t ∧ stF.links = links ∧ stF.assets = assets := by
  intro toks st
  induction toks, st using extractLoop.induct d with
  | case1 st =>
    intro _ hP t links assets hok
    rw [extractLoop] at hok
    injection hok with hok
    injection hok with ha hbc
    injection hbc with hb hc
    exact ⟨st, hP, ha, hb, hc⟩
  | case2 st tail =>
    intro _ _ t links assets hok
    rw [extractLoop] at hok
    exact absurd hok (by simp)
  | case3 st data rest ih =>
    intro hsafe hP t links assets hok
    rw [extractLoop] at hok
    exact ih (fun attrs ha => hsafe attrs (List.mem_cons_of_mem _ ha)) hP t links assets hok
  | case4 st rest ih =>
    intro hsafe hP t links assets hok
    rw [extractLoop] at hok
    exact ih (fun attrs ha => hsafe attrs (List.mem_cons_of_mem _ ha)) hP t links assets hok
  | case5 st attrs =>
    intro _ hP t links assets hok
    rw [extractLoop_title_last] at hok
    injection hok with hok
    injection hok with ha hbc
    injection hbc with hb hc
    exact ⟨st, hP, ha, hb, hc⟩
  | case6 st attrs tail =>
    intro _ _ t links assets hok
    rw [extractLoop_title_err] at hok
    exact absurd hok (by simp)
  | case7 st attrs data rest2 ih =>
    intro hsafe hP t links assets hok
    rw [extractLoop_title_text] at hok
    exact ih (fun attrs2 ha => hsafe attrs2 (List.mem_cons_of_mem _ (List.mem_cons_of_mem _ ha)))
      (htitle st (trimSpace data) hP) t links assets hok
  | case8 st attrs head rest2 hne htext ih =>
    intro hsafe hP t links assets hok
    rw [extractLoop_title_other d attrs head rest2 st hne htext] at hok
    exact ih (fun attrs2 ha => hsafe attrs2 (List.mem_cons_of_mem _ (List.mem_cons_of_mem _ ha)))
      hP t links assets hok
  | case9 st attrs rest hne ih =>
    intro hsafe hP t links assets hok
    rw [extractLoop_cons_a] at hok
    exact ih (fun attrs2 ha => hsafe attrs2 (List.mem_cons_of_mem _ ha))
      (foldl_processHref_inv d P Q hhref attrs st
        (fun v hv => hsafe attrs (List.mem_cons_self _ _) v hv) hP)
      t links assets hok
  | case10 st attrs rest h1 h2 ih =>
    intro hsafe hP t links assets hok
    rw [extractLoop_cons_script] at hok
    exact ih (fun attrs2 ha => hsafe attrs2 (List.mem_cons_of_mem _ ha))
      (foldl_addAsset_inv d P _ _ (fun st2 v hP2 => hasset st2 v _ hP2) attrs st hP)
      t links assets hok
  | case11 st attrs rest h1 h2 h3 ih =>
    intro hsafe hP t links assets hok
    rw [extractLoop_cons_img] at hok
    exact ih (fun attrs2 ha => hsafe attrs2 (List.mem_cons_of_mem _ ha))
      (foldl_addAsset_inv d P _ _ (fun st2 v hP2 => hasset st2 v _ hP2) attrs st hP)
      t links assets hok
  | case12 st attrs rest h1 h2 h3 h4 ih =>
    intro hsafe hP t links assets hok
    rw [extractLoop_cons_link] at hok
    exact ih (fun attrs2 ha => hsafe attrs2 (List.mem_cons_of_mem _ ha))
      (foldl_addAsset_inv d P _ _ (fun st2 v hP2 => hasset st2 v _ hP2) attrs st hP)
      t links assets hok
  | case13 st name attrs rest h1 h2 h3 h4 h5 ih =>
    intro hsafe hP t links assets hok
    rw [extractLoop_cons_other d name attrs rest st h1 h2 h3 h4 h5] at hok
    exact ih (fun attrs2 ha => hsafe attrs2 (List.mem_cons_of_mem _ ha)) hP t links assets hok

/-- C10: a successful `Extract` returns a link list and an asset list each
free of duplicate URLs — the two per-call dedup sets cover exactly what has
been emitted, and nothing is ever emitted twice within one call. -/
theorem extract_nodup (d : defaultExtractor) (toks : List Token) (t : Str)
    (links : List Str) (assets : List Asset)
    (h : Extract d toks = Except.ok (t, links, assets)) :
    links.Nodup ∧ (assets.map Asset.url).Nodup := by
  obtain ⟨stF, hP, _, hl, ha⟩ := extractLoop_inv d ExtractInv (fun _ => True)
    (fun st v hP _ => processHref_extractInv d st v hP)
    (fun st v k hP => addAsset_extractInv d st v k hP)
    (fun st ti hP => hP)
    toks _ (fun _ _ _ _ => trivial)
    (by refine ⟨List.nodup_nil, ?_, ?_, ?_⟩ <;> simp)
    t links assets h
  exact ⟨hl ▸ hP.1, ha ▸ hP.2.1⟩

/-- Witness for `extract_nodup` at a concrete input. -/
theorem extract_nodup_witness :
    (["//example.com/x".toList, "http://example.comx:/a".toList] : List Str).Nodup ∧
    ((([] : List Asset)).map Asset.url).Nodup :=
  extract_nodup exampleExtractor cexToks []
    ["//example.com/x".toList, "http://example.comx:/a".toList] [] rfl

